import Mathlib

/-!
# Verification of the McRconToolPlus RCON protocol layer

This file gives a shallow embedding, in Lean 4, of the protocol-critical parts
of the McRconToolPlus repository:

* `src/mcrcon_tool_plus/rcon_protocol.py` — the packet codec
  (`RconPacket.to_bytes`, `RconPacket.from_bytes`, the packet-type enum and
  the error classes), and
* `src/mcrcon_tool_plus/rcon_client.py` — the connection/authentication/command
  state machine (`RconClient`).

Modelling conventions:

* Python `bytes` values are `List Nat` (each element a byte value).
* Python `str` values are `List Nat` of Unicode code points (a Python string is
  a sequence of code points; `Char`-level API is avoided so that all reasoning
  is plain arithmetic).  `str.encode('utf-8')` and
  `bytes.decode('utf-8', errors='replace')` are modelled by an explicit UTF-8
  codec (`utf8Encode` / `utf8Decode`) following CPython's encoder and its
  replacing decoder (W3C/WHATWG byte tables, one replacement character per
  maximal subpart).
* Python `int` is `Int`; `struct.pack('<i', x)` / `struct.unpack('<i', b)` are
  `packInt32` / `unpackInt32` with explicit two's-complement arithmetic
  (`% 2^32`), and a `pack` of an out-of-range value fails like `struct.error`.
* Exceptions become `Except` error values; each raise site of the source is a
  distinct constructor (commented with the source line it models).
* The asynchronous client is modelled as explicit state passing over
  `ClientState`; the network is an oracle (`ExchangeOutcome`, and a
  `Nat → Bool` stream of transport-open outcomes) supplied as an argument.
  `connect` is instrumented with the number of `open_connection` attempts and
  `asyncio.sleep` calls it performs, and `execute_command` with whether the
  response-id-mismatch warning was logged; the instrumentation only observes,
  it never alters control flow.
-/

namespace McRcon

/-! ## Little-endian signed 32-bit integers (`struct.pack/unpack '<i'`) -/

/-- The four little-endian bytes of `n % 2^32`. -/
def le4 (n : Nat) : List Nat :=
  [n % 256, n / 256 % 256, n / 65536 % 256, n / 16777216 % 256]

/-- Model of `struct.pack('<i', x)`: little-endian two's-complement encoding of a signed
32-bit integer; `none` models the `struct.error` raised on an out-of-range
value. -/
def packInt32 (x : Int) : Option (List Nat) :=
  if -2147483648 ≤ x ∧ x < 2147483648 then some (le4 (x % 4294967296).toNat)
  else none

/-- Model of `struct.unpack('<i', b)[0]` on a 4-byte buffer: little-endian decoding,
reinterpreting values `≥ 2^31` as negative. -/
def unpackInt32 (bs : List Nat) : Int :=
  let u : Nat := bs.getD 0 0 + 256 * bs.getD 1 0 + 65536 * bs.getD 2 0 +
    16777216 * bs.getD 3 0
  if u < 2147483648 then (u : Int) else (u : Int) - 4294967296

/-! ## UTF-8 codec (`str.encode('utf-8')`, `bytes.decode('utf-8', 'replace')`) -/

/-- A Unicode scalar value: what CPython's UTF-8 encoder accepts (code points
below `0x110000` that are not surrogates). -/
def isValidScalar (n : Nat) : Bool :=
  n < 1114112 && (n < 55296 || 57344 ≤ n)

/-- UTF-8 encoding of one scalar value (1–4 bytes). -/
def utf8EncodeChar (n : Nat) : List Nat :=
  if n < 128 then [n]
  else if n < 2048 then [192 + n / 64, 128 + n % 64]
  else if n < 65536 then [224 + n / 4096, 128 + n / 64 % 64, 128 + n % 64]
  else [240 + n / 262144, 128 + n / 4096 % 64, 128 + n / 64 % 64, 128 + n % 64]

/-- UTF-8 encoding of a string (as its list of code points). -/
def utf8Encode : List Nat → List Nat
  | [] => []
  | c :: rest => utf8EncodeChar c ++ utf8Encode rest

/-- The Unicode replacement character U+FFFD, produced by
`errors='replace'`. -/
def replacementChar : Nat := 65533

/-- Lower bound for the second byte of a multi-byte sequence headed by `b`
(the W3C/WHATWG table: `E0` requires `A0..`, `F0` requires `90..`, otherwise
`80..`). -/
def cont2lo (b : Nat) : Nat :=
  if b = 224 then 160 else if b = 240 then 144 else 128

/-- Strict upper bound for the second byte of a multi-byte sequence headed by
`b` (the table: `ED` allows `..9F`, `F4` allows `..8F`, otherwise `..BF`). -/
def cont2hi (b : Nat) : Nat :=
  if b = 237 then 160 else if b = 244 then 144 else 192

/-- Model of `bytes.decode('utf-8', errors='replace')`: total UTF-8 decoding, emitting
`replacementChar` for each maximal invalid subpart instead of failing. -/
def utf8Decode : List Nat → List Nat
  | [] => []
  | b :: rest =>
    if b < 128 then b :: utf8Decode rest
    else if b < 194 then replacementChar :: utf8Decode rest
    else if b < 224 then
      match rest with
      | [] => [replacementChar]
      | b2 :: rest2 =>
        if 128 ≤ b2 ∧ b2 < 192 then
          ((b - 192) * 64 + (b2 - 128)) :: utf8Decode rest2
        else replacementChar :: utf8Decode (b2 :: rest2)
    else if b < 240 then
      match rest with
      | [] => [replacementChar]
      | b2 :: rest2 =>
        if cont2lo b ≤ b2 ∧ b2 < cont2hi b then
          match rest2 with
          | [] => [replacementChar]
          | b3 :: rest3 =>
            if 128 ≤ b3 ∧ b3 < 192 then
              ((b - 224) * 4096 + (b2 - 128) * 64 + (b3 - 128)) :: utf8Decode rest3
            else replacementChar :: utf8Decode (b3 :: rest3)
        else replacementChar :: utf8Decode (b2 :: rest2)
    else if b < 245 then
      match rest with
      | [] => [replacementChar]
      | b2 :: rest2 =>
        if cont2lo b ≤ b2 ∧ b2 < cont2hi b then
          match rest2 with
          | [] => [replacementChar]
          | b3 :: rest3 =>
            if 128 ≤ b3 ∧ b3 < 192 then
              match rest3 with
              | [] => [replacementChar]
              | b4 :: rest4 =>
                if 128 ≤ b4 ∧ b4 < 192 then
                  ((b - 240) * 262144 + (b2 - 128) * 4096 + (b3 - 128) * 64 +
                    (b4 - 128)) :: utf8Decode rest4
                else replacementChar :: utf8Decode (b4 :: rest4)
            else replacementChar :: utf8Decode (b3 :: rest3)
        else replacementChar :: utf8Decode (b2 :: rest2)
    else replacementChar :: utf8Decode rest

/-! ## `bytes.find` (terminator search of `from_bytes`) -/

/-- Model of `data.find(b'\x00\x00', i)` restricted to the suffix being scanned:
the first index (counting from `i`) at which two consecutive zero bytes
start, `none` if there is none (Python returns `-1`). -/
def findPairFrom : List Nat → Nat → Option Nat
  | b1 :: b2 :: rest, i =>
    if b1 = 0 ∧ b2 = 0 then some i else findPairFrom (b2 :: rest) (i + 1)
  | _, _ => none

/-- Model of `data.find(b'\x00', i)` restricted to the suffix being scanned: the first
index (counting from `i`) of a zero byte, `none` if there is none. -/
def findZeroFrom : List Nat → Nat → Option Nat
  | b :: rest, i => if b = 0 then some i else findZeroFrom rest (i + 1)
  | [], _ => none

/-! ## The packet codec (`rcon_protocol.py`) -/

/-- Enum `RconPacketType` (rcon_protocol.py lines 15–22). -/
inductive RconPacketType where
  | RESPONSE_VALUE  -- 0, server response
  | COMMAND_VALUE   -- 2, client command
  | AUTH_VALUE      -- 3, authentication
deriving DecidableEq, Repr

/-- The integer value of a packet type. -/
def RconPacketType.toInt : RconPacketType → Int
  | .RESPONSE_VALUE => 0
  | .COMMAND_VALUE => 2
  | .AUTH_VALUE => 3

/-- Model of `RconPacketType(value)`: `some` on the three recognized values, `none`
models the `ValueError` raised on any other value (rcon_protocol.py line
140–141). -/
def RconPacketType.ofInt? (v : Int) : Option RconPacketType :=
  if v = 0 then some .RESPONSE_VALUE
  else if v = 2 then some .COMMAND_VALUE
  else if v = 3 then some .AUTH_VALUE
  else none

/-- Errors of `RconPacket.to_bytes`, one constructor per raise site. -/
inductive EncodeError where
  | unicodeEncodeError  -- `payload.encode('utf-8')` on a surrogate (line 81)
  | payloadTooLarge     -- `struct.error` packing `total_length` (line 91)
  | idOutOfRange        -- `struct.error` packing `packet_id` (line 94)
deriving DecidableEq, Repr

/-- Errors of `RconPacket.from_bytes`, one constructor per raise site. -/
inductive ParseError where
  | truncated          -- `PacketParseError` at line 122 (fewer than 12 bytes)
  | lengthMismatch     -- `PacketParseError` at line 131 (declared ≠ actual)
  | invalidPacketType  -- `InvalidPacketTypeError` at line 142 (unknown kind)
deriving DecidableEq, Repr

/-- Class `RconPacket` (rcon_protocol.py lines 40–64): id, type and payload. The
payload string is its list of Unicode code points. -/
structure RconPacket where
  packet_id : Int
  packet_type : RconPacketType
  payload : List Nat
deriving DecidableEq, Repr

/-- Model of `RconPacket.to_bytes` (rcon_protocol.py lines 66–105): length, id and type
packed as little-endian int32, then the UTF-8 payload, then two zero
terminator bytes.  The `isinstance` check of line 77 always passes here since
`packet_type` is typed; the remaining failure modes are `EncodeError`. -/
def RconPacket.to_bytes (p : RconPacket) : Except EncodeError (List Nat) :=
  if ¬ p.payload.all isValidScalar then .error .unicodeEncodeError
  else
    let payload_bytes := utf8Encode p.payload
    let total_length : Int := 4 + 4 + payload_bytes.length + 2
    match packInt32 total_length with
    | none => .error .payloadTooLarge
    | some length_bytes =>
      match packInt32 p.packet_id with
      | none => .error .idOutOfRange
      | some id_bytes =>
        -- packing the type value (0, 2 or 3) never fails
        .ok (length_bytes ++ id_bytes ++ le4 p.packet_type.toInt.toNat ++
          payload_bytes ++ [0, 0])

/-- Model of `RconPacket.from_bytes` (rcon_protocol.py lines 107–162): length check,
declared-length check, id and type fields, then the payload up to the first
double-zero terminator at or after offset 12 (falling back to the first single
zero, then to the end of the buffer). -/
def RconPacket.from_bytes (data : List Nat) : Except ParseError RconPacket :=
  if data.length < 12 then .error .truncated
  else
    let packet_length := unpackInt32 (data.take 4)
    if packet_length ≠ (data.length : Int) - 4 then .error .lengthMismatch
    else
      let packet_id := unpackInt32 ((data.drop 4).take 4)
      let type_value := unpackInt32 ((data.drop 8).take 4)
      match RconPacketType.ofInt? type_value with
      | none => .error .invalidPacketType
      | some packet_type =>
        let payload_end :=
          match findPairFrom (data.drop 12) 12 with
          | some i => i
          | none =>
            match findZeroFrom (data.drop 12) 12 with
            | some i => i
            | none => data.length
        let payload :=
          if payload_end > 12 then utf8Decode ((data.drop 12).take (payload_end - 12))
          else []
        .ok ⟨packet_id, packet_type, payload⟩

/-- Function `parse_packet` (rcon_protocol.py lines 246–259). -/
def parse_packet (data : List Nat) : Except ParseError RconPacket :=
  RconPacket.from_bytes data

/-- Model of `create_auth_packet` / `AuthPacket.__init__` (rcon_protocol.py lines
170–181, 218–229). -/
def create_auth_packet (packet_id : Int) (password : List Nat) : RconPacket :=
  ⟨packet_id, .AUTH_VALUE, password⟩

/-- Model of `create_command_packet` / `CommandPacket.__init__` (rcon_protocol.py lines
184–195, 232–243). -/
def create_command_packet (packet_id : Int) (command : List Nat) : RconPacket :=
  ⟨packet_id, .COMMAND_VALUE, command⟩

/-! ## The client (`rcon_client.py`)

The asynchronous `RconClient` is embedded as explicit state passing.  The
mutable attributes that carry protocol state become `ClientState`; the
immutable constructor arguments become `RconConfig`.  Network nondeterminism
is supplied by the caller as an oracle: a `Nat → Bool` stream saying whether
the i-th `asyncio.open_connection` attempt succeeds, and an
`ExchangeOutcome` describing what one send-then-receive exchange on the wire
produces (the delivered frame bytes, or the failure that interrupted it). -/

/-- The constructor inputs of `RconClient.__init__` (rcon_client.py lines
47–72) that affect the modelled logic.  `host`, `port`, `timeout` and
`retry_delay` are opaque to the protocol logic (real time and addressing are
not modelled); `timeout`/`retry_delay` show up only through the instrumented
sleep count of `connect`. -/
structure RconConfig where
  password : List Nat
  retry_attempts : Nat
deriving DecidableEq

/-- The mutable state of one `RconClient` instance (rcon_client.py lines
74–79): `connected` models `_reader`/`_writer` both being present with the
writer not closing (they are always set and cleared together),
`packet_id` is `_packet_id` (an unbounded Python `int`), `authenticated` is
`_authenticated`. -/
structure ClientState where
  connected : Bool
  packet_id : Int
  authenticated : Bool
deriving DecidableEq, Repr

/-- The state right after `__init__`: no transport, `_packet_id = 0`, not
authenticated. -/
def initState : ClientState := ⟨false, 0, false⟩

/-- Property `is_connected` (rcon_client.py lines 81–88). -/
def is_connected (s : ClientState) : Bool := s.connected

/-- Property `is_authenticated` (rcon_client.py lines 90–93):
`_authenticated and is_connected`. -/
def is_authenticated (s : ClientState) : Bool := s.authenticated && s.connected

/-- Model of `_get_next_packet_id` (rcon_client.py lines 95–103): increment the counter
and return it. -/
def get_next_packet_id (s : ClientState) : Int × ClientState :=
  (s.packet_id + 1, { s with packet_id := s.packet_id + 1 })

/-- Model of `_close_connection` (rcon_client.py lines 340–360): clear `_authenticated`,
close and drop the writer and reader. -/
def close_connection (s : ClientState) : ClientState :=
  { s with authenticated := false, connected := false }

/-- Method `disconnect` (rcon_client.py lines 332–338). -/
def disconnect (s : ClientState) : ClientState := close_connection s

/-- What the network does during one send-then-receive exchange
(`_send_packet_and_wait_response` together with `_read_packet_data`):
either a complete frame is delivered (`data`, the length prefix plus body,
handed to `parse_packet`), or the exchange is interrupted by a timeout
(`asyncio.TimeoutError`), a `ConnectionResetError`, or another `OSError`. -/
inductive ExchangeOutcome where
  | data (bytes : List Nat)
  | timeout
  | reset
  | osError
deriving DecidableEq

/-- The errors an `RconClient` operation can surface, one constructor per
distinct raise (exception class plus message), with the codec errors nested.
`connectionError` is the module's own `ConnectionError(RconError)` class. -/
inductive ClientError where
  | connectionError                -- rcon_client.py ConnectionError raises
  | authWrongPassword              -- AuthenticationError("RCON 密码错误"), line 174
  | authIdMismatch                 -- AuthenticationError("认证响应 ID 不匹配"), line 178
  | timeoutError                   -- asyncio.TimeoutError propagated
  | parseError (e : ParseError)    -- parse_packet failure propagated
  | encodeError (e : EncodeError)  -- packet.to_bytes failure propagated
deriving DecidableEq

/-- Model of `_send_packet_and_wait_response` (rcon_client.py lines 234–277): guard on
`is_connected`, encode and send the packet, read one frame, parse it, and
wrap it as a `ResponsePacket` (a packet of type `RESPONSE_VALUE` with the
parsed id and payload).  `ConnectionResetError` and `OSError` are caught
here, close the connection and become `ConnectionError` (lines 270–277);
a timeout or a parse/encode failure propagates without closing here (the
caller's handler closes). -/
def send_packet_and_wait_response (s : ClientState) (packet : RconPacket)
    (env : ExchangeOutcome) : Except ClientError RconPacket × ClientState :=
  if ¬ is_connected s then (.error .connectionError, s)  -- line 248–249
  else
    match packet.to_bytes with
    | .error e => (.error (.encodeError e), s)
    | .ok _ =>
      match env with
      | .data bytes =>
        match parse_packet bytes with
        | .ok rp => (.ok ⟨rp.packet_id, .RESPONSE_VALUE, rp.payload⟩, s)
        | .error e => (.error (.parseError e), s)
      | .timeout => (.error .timeoutError, s)
      | .reset => (.error .connectionError, close_connection s)
      | .osError => (.error .connectionError, close_connection s)

/-- Model of `_authenticate` (rcon_client.py lines 151–190): allocate the next request
id, send an Auth packet, then check the response: id `-1` means wrong
password (checked first), any other non-matching id is an id mismatch; on a
match, mark authenticated.  Every failure inside the `try` (including the two
`AuthenticationError` raises) is caught by the generic handler, which closes
the connection and re-raises (lines 183–190). -/
def authenticate (cfg : RconConfig) (s : ClientState) (env : ExchangeOutcome) :
    Except ClientError Unit × ClientState :=
  if ¬ is_connected s then (.error .connectionError, s)  -- lines 159–160, no close
  else
    let (pid, s1) := get_next_packet_id s
    match send_packet_and_wait_response s1 (create_auth_packet pid cfg.password) env with
    | (.error e, s2) => (.error e, close_connection s2)
    | (.ok resp, s2) =>
      if resp.packet_id = -1 then (.error .authWrongPassword, close_connection s2)
      else if resp.packet_id ≠ pid then (.error .authIdMismatch, close_connection s2)
      else (.ok (), { s2 with authenticated := true })

instance {ε α : Type} [DecidableEq ε] [DecidableEq α] : DecidableEq (Except ε α) := fun a b =>
  match a, b with
  | .error e1, .error e2 =>
    if h : e1 = e2 then isTrue (congrArg Except.error h)
    else isFalse (fun hc => h (Except.error.inj hc))
  | .ok v1, .ok v2 =>
    if h : v1 = v2 then isTrue (congrArg Except.ok h)
    else isFalse (fun hc => h (Except.ok.inj hc))
  | .error _, .ok _ => isFalse (fun hc => Except.noConfusion hc)
  | .ok _, .error _ => isFalse (fun hc => Except.noConfusion hc)

/-- The result of `connect`, instrumented: `attempts` counts the
`asyncio.open_connection` calls made, `sleeps` the `asyncio.sleep(retry_delay)`
calls made between failed attempts. -/
structure ConnectResult where
  result : Except ClientError Unit
  state : ClientState
  attempts : Nat
  sleeps : Nat
deriving DecidableEq

/-- The retry loop of `connect` (rcon_client.py lines 125–143):
`for attempt in range(total)`, breaking on the first successful open, sleeping
`retry_delay` after each failed attempt except the last.  Returns whether an
open succeeded, the number of attempts made, and the number of sleeps. -/
def connect_attempts (outcomes : Nat → Bool) : Nat → Nat → Bool × Nat × Nat
  | _, 0 => (false, 0, 0)
  | i, n + 1 =>
    if outcomes i then (true, 1, 0)
    else if n = 0 then (false, 1, 0)
    else
      let (r, a, sl) := connect_attempts outcomes (i + 1) n
      (r, a + 1, sl + 1)

/-- Model of `connect` (rcon_client.py lines 105–149): no-op when already connected and
authenticated; otherwise close any existing connection, try to open the
transport up to `retry_attempts + 1` times, raise `ConnectionError` wrapping
the last failure if none succeeded, and finally authenticate (whose failures
propagate, having already closed the connection). -/
def connect (cfg : RconConfig) (s : ClientState) (outcomes : Nat → Bool)
    (authEnv : ExchangeOutcome) : ConnectResult :=
  if is_connected s ∧ is_authenticated s then ⟨.ok (), s, 0, 0⟩
  else
    let s1 := close_connection s
    match connect_attempts outcomes 0 (cfg.retry_attempts + 1) with
    | (opened, attempts, sleeps) =>
      if opened then
        match authenticate cfg { s1 with connected := true } authEnv with
        | (.ok _, s3) => ⟨.ok (), s3, attempts, sleeps⟩
        | (.error e, s3) => ⟨.error e, s3, attempts, sleeps⟩
      else ⟨.error .connectionError, s1, attempts, sleeps⟩  -- line 146

/-- The network oracle for one high-level client operation: the stream of
transport-open outcomes (consumed if a reconnect happens), the exchange
outcome of the authentication request, and the exchange outcome of the
command request. -/
structure NetEnv where
  openOutcomes : Nat → Bool
  authExchange : ExchangeOutcome
  cmdExchange : ExchangeOutcome

/-- The result of `execute_command`, instrumented: `warned` records whether
the response-id-mismatch warning of line 219–220 was logged. -/
structure ExecResult where
  result : Except ClientError (List Nat)
  state : ClientState
  warned : Bool

/-- The body of `execute_command` after the reconnect-on-demand step
(rcon_client.py lines 210–232): allocate the next request id, send a Command
packet, and return the response payload even when the response id does not
match (only a warning is logged); any failure closes the connection and
propagates. -/
def execute_command_core (s : ClientState) (command : List Nat)
    (env : ExchangeOutcome) : ExecResult :=
  let (pid, s1) := get_next_packet_id s
  match send_packet_and_wait_response s1 (create_command_packet pid command) env with
  | (.error e, s2) => ⟨.error e, close_connection s2, false⟩
  | (.ok resp, s2) => ⟨.ok resp.payload, s2, resp.packet_id ≠ pid⟩

/-- Model of `execute_command` (rcon_client.py lines 192–232): connect first when not
authenticated (propagating connect/auth failures), then run the command
exchange. -/
def execute_command (cfg : RconConfig) (s : ClientState) (env : NetEnv)
    (command : List Nat) : ExecResult :=
  if is_authenticated s then execute_command_core s command env.cmdExchange
  else
    match connect cfg s env.openOutcomes env.authExchange with
    | ⟨.error e, s1, _, _⟩ => ⟨.error e, s1, false⟩
    | ⟨.ok _, s1, _, _⟩ => execute_command_core s1 command env.cmdExchange

/-- The code points of the string `"time query daytime"` sent by `ping`. -/
def time_query_daytime : List Nat :=
  [116, 105, 109, 101, 32, 113, 117, 101, 114, 121, 32, 100, 97, 121, 116,
    105, 109, 101]

/-- Model of `ping` (rcon_client.py lines 308–330): connect when not authenticated
(those failures propagate unwrapped, lines 318–319), then execute
`"time query daytime"`; any failure of the command step is wrapped as
`ConnectionError("Ping 失败: ...")` (lines 328–330).  The measured latency is
wall-clock time, not modelled; the result carries only success or failure. -/
def ping (cfg : RconConfig) (s : ClientState) (env : NetEnv) :
    Except ClientError Unit × ClientState :=
  if is_authenticated s then
    match execute_command cfg s env time_query_daytime with
    | ⟨.ok _, s1, _⟩ => (.ok (), s1)
    | ⟨.error _, s1, _⟩ => (.error .connectionError, s1)
  else
    match connect cfg s env.openOutcomes env.authExchange with
    | ⟨.error e, s1, _, _⟩ => (.error e, s1)
    | ⟨.ok _, s1, _, _⟩ =>
      match execute_command cfg s1 env time_query_daytime with
      | ⟨.ok _, s2, _⟩ => (.ok (), s2)
      | ⟨.error _, s2, _⟩ => (.error .connectionError, s2)

/-! ## Lemmas: little-endian int32 -/

theorem le4_length (n : Nat) : (le4 n).length = 4 := by
  simp [le4]

theorem unpackInt32_le4 (n : Nat) (h : n < 2147483648) :
    unpackInt32 (le4 n) = n := by
  have hu : n % 256 + 256 * (n / 256 % 256) + 65536 * (n / 65536 % 256) +
      16777216 * (n / 16777216 % 256) = n := by omega
  simp only [unpackInt32, le4, List.getD_cons_zero, List.getD_cons_succ]
  rw [hu, if_pos (by exact_mod_cast h)]

theorem unpackInt32_le4_int (x : Int) (h1 : -2147483648 ≤ x)
    (h2 : x < 2147483648) : unpackInt32 (le4 (x % 4294967296).toNat) = x := by
  have hm : 0 ≤ x % 4294967296 := Int.emod_nonneg x (by norm_num)
  have hm2 : x % 4294967296 < 4294967296 := Int.emod_lt_of_pos x (by norm_num)
  have hxn : ((x % 4294967296).toNat : Int) = x % 4294967296 :=
    Int.toNat_of_nonneg hm
  have hcase : ((x % 4294967296).toNat : Int) = x ∨
      ((x % 4294967296).toNat : Int) = x + 4294967296 := by omega
  have hu : ∀ n : Nat, n < 4294967296 →
      n % 256 + 256 * (n / 256 % 256) + 65536 * (n / 65536 % 256) +
        16777216 * (n / 16777216 % 256) = n := by omega
  simp only [unpackInt32, le4, List.getD_cons_zero, List.getD_cons_succ]
  rw [hu (x % 4294967296).toNat (by omega)]
  split_ifs with hlt
  · omega
  · omega

theorem packInt32_of_nonneg (x : Int) (h0 : 0 ≤ x) (h : x < 2147483648) :
    packInt32 x = some (le4 x.toNat) := by
  unfold packInt32
  rw [if_pos ⟨by omega, h⟩]
  have hx : x % 4294967296 = x := by omega
  rw [hx]

theorem packInt32_of_inbounds (x : Int) (h1 : -2147483648 ≤ x)
    (h2 : x < 2147483648) :
    packInt32 x = some (le4 (x % 4294967296).toNat) := by
  unfold packInt32
  rw [if_pos ⟨h1, h2⟩]

/-! ## Lemmas: UTF-8 codec -/

theorem utf8EncodeChar_length_pos (n : Nat) : 0 < (utf8EncodeChar n).length := by
  unfold utf8EncodeChar
  split_ifs <;> simp

theorem utf8EncodeChar_ne_zero (n : Nat) (hn : n ≠ 0) :
    ∀ b ∈ utf8EncodeChar n, b ≠ 0 := by
  unfold utf8EncodeChar
  split_ifs with h1 h2 h3 <;> intro b hb <;> fin_cases hb <;> omega

theorem utf8Encode_ne_zero (s : List Nat) (h : ∀ c ∈ s, c ≠ 0) :
    ∀ b ∈ utf8Encode s, b ≠ 0 := by
  induction s with
  | nil => intro b hb; simp [utf8Encode] at hb
  | cons c cs ih =>
    intro b hb
    rw [utf8Encode] at hb
    rcases List.mem_append.mp hb with hb1 | hb2
    · exact utf8EncodeChar_ne_zero c (h c (List.mem_cons_self c cs)) b hb1
    · exact ih (fun x hx => h x (List.mem_cons_of_mem c hx)) b hb2

theorem utf8Encode_eq_nil (s : List Nat) (h : utf8Encode s = []) : s = [] := by
  cases s with
  | nil => rfl
  | cons c cs =>
    exfalso
    rw [utf8Encode] at h
    rcases List.append_eq_nil.mp h with ⟨h1, h2⟩
    have hp := utf8EncodeChar_length_pos c
    rw [h1] at hp
    simp at hp

theorem utf8Decode_ascii (b : Nat) (hb : b < 128) (l : List Nat) :
    utf8Decode (b :: l) = b :: utf8Decode l := by
  rw [utf8Decode.eq_def]
  dsimp only
  rw [if_pos hb]

theorem utf8Decode_two (b b2 : Nat) (hb : 194 ≤ b) (hb2 : b < 224)
    (h2 : 128 ≤ b2) (h2b : b2 < 192) (l : List Nat) :
    utf8Decode (b :: b2 :: l) = ((b - 192) * 64 + (b2 - 128)) :: utf8Decode l := by
  rw [utf8Decode.eq_def]
  dsimp only
  rw [if_neg (by omega), if_neg (by omega), if_pos hb2, if_pos ⟨h2, h2b⟩]

theorem utf8Decode_three (b b2 b3 : Nat) (hb : 224 ≤ b) (hb2 : b < 240)
    (h2 : cont2lo b ≤ b2) (h2b : b2 < cont2hi b)
    (h3 : 128 ≤ b3) (h3b : b3 < 192) (l : List Nat) :
    utf8Decode (b :: b2 :: b3 :: l) =
      ((b - 224) * 4096 + (b2 - 128) * 64 + (b3 - 128)) :: utf8Decode l := by
  rw [utf8Decode.eq_def]
  dsimp only
  rw [if_neg (by omega), if_neg (by omega), if_neg (by omega), if_pos hb2,
    if_pos ⟨h2, h2b⟩, if_pos ⟨h3, h3b⟩]

theorem utf8Decode_four (b b2 b3 b4 : Nat) (hb : 240 ≤ b) (hb2 : b < 245)
    (h2 : cont2lo b ≤ b2) (h2b : b2 < cont2hi b)
    (h3 : 128 ≤ b3) (h3b : b3 < 192) (h4 : 128 ≤ b4) (h4b : b4 < 192)
    (l : List Nat) :
    utf8Decode (b :: b2 :: b3 :: b4 :: l) =
      ((b - 240) * 262144 + (b2 - 128) * 4096 + (b3 - 128) * 64 + (b4 - 128)) ::
        utf8Decode l := by
  rw [utf8Decode.eq_def]
  dsimp only
  rw [if_neg (by omega), if_neg (by omega), if_neg (by omega), if_neg (by omega),
    if_pos hb2, if_pos ⟨h2, h2b⟩, if_pos ⟨h3, h3b⟩, if_pos ⟨h4, h4b⟩]

theorem utf8Decode_encodeChar (n : Nat) (h : isValidScalar n = true)
    (rest : List Nat) :
    utf8Decode (utf8EncodeChar n ++ rest) = n :: utf8Decode rest := by
  have hv : n < 1114112 ∧ (n < 55296 ∨ 57344 ≤ n) := by
    unfold isValidScalar at h
    simp only [Bool.and_eq_true, Bool.or_eq_true, decide_eq_true_eq] at h
    exact h
  obtain ⟨hva, hvb⟩ := hv
  by_cases h1 : n < 128
  · have e : utf8EncodeChar n = [n] := by unfold utf8EncodeChar; rw [if_pos h1]
    rw [e, List.cons_append, List.nil_append]
    exact utf8Decode_ascii n h1 rest
  by_cases h2 : n < 2048
  · have e : utf8EncodeChar n = [192 + n / 64, 128 + n % 64] := by
      unfold utf8EncodeChar; rw [if_neg h1, if_pos h2]
    rw [e]
    simp only [List.cons_append, List.nil_append]
    rw [utf8Decode_two (192 + n / 64) (128 + n % 64) (by omega) (by omega)
      (by omega) (by omega) rest]
    have hval : (192 + n / 64 - 192) * 64 + (128 + n % 64 - 128) = n := by omega
    rw [hval]
  by_cases h3 : n < 65536
  · have e : utf8EncodeChar n = [224 + n / 4096, 128 + n / 64 % 64, 128 + n % 64] := by
      unfold utf8EncodeChar; rw [if_neg h1, if_neg h2, if_pos h3]
    have hlo : cont2lo (224 + n / 4096) ≤ 128 + n / 64 % 64 := by
      simp only [cont2lo]; split_ifs <;> omega
    have hhi : 128 + n / 64 % 64 < cont2hi (224 + n / 4096) := by
      simp only [cont2hi]; split_ifs <;> omega
    rw [e]
    simp only [List.cons_append, List.nil_append]
    rw [utf8Decode_three (224 + n / 4096) (128 + n / 64 % 64) (128 + n % 64)
      (by omega) (by omega) hlo hhi (by omega) (by omega) rest]
    have hval : (224 + n / 4096 - 224) * 4096 + (128 + n / 64 % 64 - 128) * 64 +
        (128 + n % 64 - 128) = n := by omega
    rw [hval]
  · have e : utf8EncodeChar n = [240 + n / 262144, 128 + n / 4096 % 64,
        128 + n / 64 % 64, 128 + n % 64] := by
      unfold utf8EncodeChar; rw [if_neg h1, if_neg h2, if_neg h3]
    have hlo : cont2lo (240 + n / 262144) ≤ 128 + n / 4096 % 64 := by
      simp only [cont2lo]; split_ifs <;> omega
    have hhi : 128 + n / 4096 % 64 < cont2hi (240 + n / 262144) := by
      simp only [cont2hi]; split_ifs <;> omega
    rw [e]
    simp only [List.cons_append, List.nil_append]
    rw [utf8Decode_four (240 + n / 262144) (128 + n / 4096 % 64)
      (128 + n / 64 % 64) (128 + n % 64) (by omega) (by omega) hlo hhi
      (by omega) (by omega) (by omega) (by omega) rest]
    have hval : (240 + n / 262144 - 240) * 262144 + (128 + n / 4096 % 64 - 128) * 4096 +
        (128 + n / 64 % 64 - 128) * 64 + (128 + n % 64 - 128) = n := by omega
    rw [hval]

theorem utf8Decode_encode_append (s : List Nat)
    (h : ∀ c ∈ s, isValidScalar c = true) (rest : List Nat) :
    utf8Decode (utf8Encode s ++ rest) = s ++ utf8Decode rest := by
  induction s with
  | nil => simp [utf8Encode]
  | cons c cs ih =>
    rw [utf8Encode, List.append_assoc,
      utf8Decode_encodeChar c (h c (List.mem_cons_self c cs)),
      ih (fun x hx => h x (List.mem_cons_of_mem c hx))]
    rfl

theorem utf8Decode_utf8Encode (s : List Nat)
    (h : ∀ c ∈ s, isValidScalar c = true) :
    utf8Decode (utf8Encode s) = s := by
  have hd := utf8Decode_encode_append s h []
  rw [List.append_nil] at hd
  rw [hd]
  simp [utf8Decode]

/-! ## Lemmas: terminator search -/

theorem findPairFrom_cons (b : Nat) (hb : b ≠ 0) (x : Nat) (l : List Nat)
    (i : Nat) : findPairFrom (b :: x :: l) i = findPairFrom (x :: l) (i + 1) := by
  rw [findPairFrom]
  rw [if_neg (by simp [hb])]

theorem findPairFrom_append_pair (pb : List Nat) (tail : List Nat) (i : Nat)
    (h : ∀ b ∈ pb, b ≠ 0) :
    findPairFrom (pb ++ 0 :: 0 :: tail) i = some (i + pb.length) := by
  revert h
  induction pb generalizing i with
  | nil =>
    intro h
    simp only [List.nil_append, List.length_nil, Nat.add_zero]
    rw [findPairFrom, if_pos ⟨rfl, rfl⟩]
  | cons b bs ih =>
    intro h
    have hb : b ≠ 0 := h b (List.mem_cons_self b bs)
    cases bs with
    | nil =>
      simp only [List.cons_append, List.nil_append]
      rw [findPairFrom_cons b hb 0 (0 :: tail) i, findPairFrom, if_pos ⟨rfl, rfl⟩]
      simp
    | cons b2 bs2 =>
      simp only [List.cons_append]
      rw [findPairFrom_cons b hb b2 (bs2 ++ 0 :: 0 :: tail) i,
        ← List.cons_append,
        ih (i + 1) (fun x hx => h x (List.mem_cons_of_mem b hx))]
      simp only [List.length_cons, Option.some.injEq]
      omega

theorem findPairFrom_no_pair (pb : List Nat) (i : Nat)
    (h : ∀ b ∈ pb, b ≠ 0) : findPairFrom pb i = none := by
  revert h
  induction pb generalizing i with
  | nil => intro h; rfl
  | cons b bs ih =>
    intro h
    have hb : b ≠ 0 := h b (List.mem_cons_self b bs)
    cases bs with
    | nil => rfl
    | cons b2 bs2 =>
      rw [findPairFrom_cons b hb b2 bs2 i]
      exact ih (i + 1) (fun x hx => h x (List.mem_cons_of_mem b hx))

theorem findPairFrom_single_zero (pb : List Nat) (i : Nat)
    (h : ∀ b ∈ pb, b ≠ 0) : findPairFrom (pb ++ [0]) i = none := by
  revert h
  induction pb generalizing i with
  | nil => intro h; rfl
  | cons b bs ih =>
    intro h
    have hb : b ≠ 0 := h b (List.mem_cons_self b bs)
    cases bs with
    | nil =>
      simp only [List.cons_append, List.nil_append]
      rw [findPairFrom_cons b hb 0 [] i]
      rfl
    | cons b2 bs2 =>
      simp only [List.cons_append]
      rw [findPairFrom_cons b hb b2 (bs2 ++ [0]) i, ← List.cons_append]
      exact ih (i + 1) (fun x hx => h x (List.mem_cons_of_mem b hx))

theorem findZeroFrom_no_zero (pb : List Nat) (i : Nat)
    (h : ∀ b ∈ pb, b ≠ 0) : findZeroFrom pb i = none := by
  revert h
  induction pb generalizing i with
  | nil => intro h; rfl
  | cons b bs ih =>
    intro h
    rw [findZeroFrom, if_neg (h b (List.mem_cons_self b bs))]
    exact ih (i + 1) (fun x hx => h x (List.mem_cons_of_mem b hx))

theorem findZeroFrom_append_zero (pb : List Nat) (tail : List Nat) (i : Nat)
    (h : ∀ b ∈ pb, b ≠ 0) :
    findZeroFrom (pb ++ 0 :: tail) i = some (i + pb.length) := by
  revert h
  induction pb generalizing i with
  | nil =>
    intro h
    simp only [List.nil_append, List.length_nil, Nat.add_zero]
    rw [findZeroFrom, if_pos rfl]
  | cons b bs ih =>
    intro h
    simp only [List.cons_append]
    rw [findZeroFrom, if_neg (h b (List.mem_cons_self b bs)),
      ih (i + 1) (fun x hx => h x (List.mem_cons_of_mem b hx))]
    simp only [List.length_cons, Option.some.injEq]
    omega

/-! ## Lemmas: the codec on well-formed buffers -/

theorem to_bytes_ok (p : RconPacket)
    (hv : p.payload.all isValidScalar = true)
    (hlen : (utf8Encode p.payload).length + 10 < 2147483648)
    (hid1 : -2147483648 ≤ p.packet_id) (hid2 : p.packet_id < 2147483648) :
    p.to_bytes = .ok (le4 ((utf8Encode p.payload).length + 10) ++
      le4 (p.packet_id % 4294967296).toNat ++ le4 p.packet_type.toInt.toNat ++
      utf8Encode p.payload ++ [0, 0]) := by
  have h1 : packInt32 (4 + 4 + ((utf8Encode p.payload).length : Int) + 2) =
      some (le4 ((utf8Encode p.payload).length + 10)) := by
    rw [packInt32_of_nonneg _ (by omega) (by push_cast; omega)]
    have ht : (4 + 4 + ((utf8Encode p.payload).length : Int) + 2).toNat =
        (utf8Encode p.payload).length + 10 := by omega
    rw [ht]
  have h2 : packInt32 p.packet_id = some (le4 (p.packet_id % 4294967296).toNat) :=
    packInt32_of_inbounds p.packet_id hid1 hid2
  unfold RconPacket.to_bytes
  rw [if_neg (by simp [hv])]
  simp only [h1, h2]

theorem from_bytes_to_bytes (p : RconPacket)
    (hv : p.payload.all isValidScalar = true)
    (hnz : ∀ c ∈ p.payload, c ≠ 0)
    (hid1 : -2147483648 ≤ p.packet_id) (hid2 : p.packet_id < 2147483648)
    (hlen : (utf8Encode p.payload).length + 10 < 2147483648) :
    RconPacket.from_bytes (le4 ((utf8Encode p.payload).length + 10) ++
      le4 (p.packet_id % 4294967296).toNat ++ le4 p.packet_type.toInt.toNat ++
      utf8Encode p.payload ++ [0, 0]) = .ok p := by
  set pb := utf8Encode p.payload with hpb
  set L := pb.length with hL
  set idn := (p.packet_id % 4294967296).toNat with hidn
  set k := p.packet_type.toInt.toNat with hknat
  have hk3 : k = 0 ∨ k = 2 ∨ k = 3 := by
    rw [hknat]; cases p.packet_type <;> simp [RconPacketType.toInt]
  have hassoc : le4 (L + 10) ++ le4 idn ++ le4 k ++ pb ++ [0, 0] =
      le4 (L + 10) ++ (le4 idn ++ (le4 k ++ (pb ++ [0, 0]))) := by
    simp [List.append_assoc]
  rw [hassoc]
  set B := le4 (L + 10) ++ (le4 idn ++ (le4 k ++ (pb ++ [0, 0]))) with hB
  have hBlen : B.length = L + 14 := by
    rw [hB]; simp [le4]
  have ht4 : B.take 4 = le4 (L + 10) := by
    rw [hB]; exact List.take_left' (le4_length _)
  have hd4 : B.drop 4 = le4 idn ++ (le4 k ++ (pb ++ [0, 0])) := by
    rw [hB]; exact List.drop_left' (le4_length _)
  have hd8 : B.drop 8 = le4 k ++ (pb ++ [0, 0]) := by
    have h44 : B.drop 8 = (B.drop 4).drop 4 := by
      rw [List.drop_drop]
    rw [h44, hd4]
    exact List.drop_left' (le4_length _)
  have hd12 : B.drop 12 = pb ++ [0, 0] := by
    have h84 : B.drop 12 = (B.drop 8).drop 4 := by
      rw [List.drop_drop]
    rw [h84, hd8]
    exact List.drop_left' (le4_length _)
  have hpbnz : ∀ b ∈ pb, b ≠ 0 := utf8Encode_ne_zero p.payload hnz
  have hfind : findPairFrom (pb ++ [0, 0]) 12 = some (12 + L) := by
    have := findPairFrom_append_pair pb [] 12 hpbnz
    simpa using this
  unfold RconPacket.from_bytes
  rw [if_neg (by rw [hBlen]; omega)]
  rw [ht4, unpackInt32_le4 (L + 10) (by omega), hBlen]
  rw [if_neg (by push_cast; omega)]
  rw [hd4, List.take_left' (le4_length _), unpackInt32_le4_int p.packet_id hid1 hid2]
  rw [hd8, List.take_left' (le4_length _), unpackInt32_le4 k (by omega)]
  have hof : RconPacketType.ofInt? (k : Int) = some p.packet_type := by
    rw [hknat]; cases p.packet_type <;> simp [RconPacketType.ofInt?, RconPacketType.toInt]
  simp only [hof, hd12, hfind]
  rcases Nat.eq_zero_or_pos L with hL0 | hLpos
  · have hpbnil : pb = [] := List.length_eq_zero.mp (hL ▸ hL0)
    have hpay : p.payload = [] := utf8Encode_eq_nil p.payload (hpb ▸ hpbnil)
    rw [if_neg (show ¬ 12 + L > 12 by omega)]
    rw [← hpay]
  · rw [if_pos (show 12 + L > 12 by omega)]
    have hLsub : 12 + L - 12 = L := by omega
    rw [hLsub, List.take_left' hL.symm, hpb,
      utf8Decode_utf8Encode p.payload (by simpa [List.all_eq_true] using hv)]

/-- Evaluation of `from_bytes` on a buffer split as a 12-byte header plus the remainder:
the three header checks pass, and the payload is cut at `pend`, the value of
the terminator search on the remainder. -/
theorem from_bytes_split (hdr rest : List Nat) (kind : RconPacketType)
    (hh : hdr.length = 12)
    (hmatch : unpackInt32 (hdr.take 4) = ((hdr ++ rest).length : Int) - 4)
    (hkind : RconPacketType.ofInt? (unpackInt32 ((hdr.drop 8).take 4)) = some kind)
    (pend : Nat)
    (hpend : (match findPairFrom rest 12 with
              | some i => i
              | none =>
                match findZeroFrom rest 12 with
                | some i => i
                | none => (hdr ++ rest).length) = pend) :
    RconPacket.from_bytes (hdr ++ rest) =
      .ok ⟨unpackInt32 ((hdr.drop 4).take 4), kind,
        if pend > 12 then utf8Decode (rest.take (pend - 12)) else []⟩ := by
  have hlen : (hdr ++ rest).length = 12 + rest.length := by simp [hh]
  have ht4 : (hdr ++ rest).take 4 = hdr.take 4 :=
    List.take_append_of_le_length (by omega)
  have ht44 : ((hdr ++ rest).drop 4).take 4 = (hdr.drop 4).take 4 := by
    rw [List.drop_append_of_le_length (by omega)]
    exact List.take_append_of_le_length (by simp [hh])
  have ht84 : ((hdr ++ rest).drop 8).take 4 = (hdr.drop 8).take 4 := by
    rw [List.drop_append_of_le_length (by omega)]
    exact List.take_append_of_le_length (by simp [hh])
  have hd12 : (hdr ++ rest).drop 12 = rest := List.drop_left' hh
  simp only [RconPacket.from_bytes]
  rw [if_neg (show ¬ (hdr ++ rest).length < 12 by omega)]
  rw [ht4, if_neg (not_not_intro hmatch)]
  rw [ht44, ht84, hkind]
  rw [hd12, hpend]

theorem ofInt?_eq_none (v : Int) (h : v ∉ ([0, 2, 3] : List Int)) :
    RconPacketType.ofInt? v = none := by
  simp only [List.mem_cons, List.not_mem_nil, or_false, not_or] at h
  unfold RconPacketType.ofInt?
  rw [if_neg h.1, if_neg h.2.1, if_neg h.2.2]

theorem utf8Encode_replicate_65 (n : Nat) :
    utf8Encode (List.replicate n 65) = List.replicate n 65 := by
  induction n with
  | zero => rfl
  | succ m ih =>
    rw [List.replicate_succ, utf8Encode, ih]
    rfl

theorem all_valid_replicate_65 (n : Nat) :
    (List.replicate n 65).all isValidScalar = true := by
  rw [List.all_eq_true]
  intro x hx
  rw [List.eq_of_mem_replicate hx]
  decide

/-! ## Claim theorems -/

/-- Claim C1, counterexample: the packet with id 1, kind Auth and payload
consisting of the single NUL code point — a valid UTF-8 string well within the
32-bit size bound — does not round-trip: its encoding decodes to a packet with
the empty payload, because the NUL byte merges with the terminator pair.  This
refutes the claim as stated (round trip for every valid UTF-8 payload). -/
theorem C1_counterexample :
    RconPacket.to_bytes ⟨1, .AUTH_VALUE, [0]⟩ =
      .ok [11, 0, 0, 0, 1, 0, 0, 0, 3, 0, 0, 0, 0, 0, 0] ∧
    RconPacket.from_bytes [11, 0, 0, 0, 1, 0, 0, 0, 3, 0, 0, 0, 0, 0, 0] =
      .ok ⟨1, .AUTH_VALUE, []⟩ ∧
    (RconPacket.mk 1 .AUTH_VALUE [] ≠ RconPacket.mk 1 .AUTH_VALUE [0]) :=
  ⟨by decide, by decide, by decide⟩

/-- Claim C1 (amended): for every packet whose kind is one of the three
recognized values (guaranteed here by typing), whose id fits in a signed
32-bit integer, and whose payload is a valid UTF-8 string that contains no
NUL character, with the encoded payload within the 32-bit signed length
bound, decoding the encoding reproduces the packet exactly: `from_bytes`
applied to the output of `to_bytes` yields a packet with the same id, kind
and payload. -/
theorem C1_roundtrip (p : RconPacket)
    (hv : p.payload.all isValidScalar = true)
    (hnz : ∀ c ∈ p.payload, c ≠ 0)
    (hid1 : -2147483648 ≤ p.packet_id) (hid2 : p.packet_id < 2147483648)
    (hlen : (utf8Encode p.payload).length + 10 < 2147483648) :
    ∃ B, p.to_bytes = .ok B ∧ RconPacket.from_bytes B = .ok p :=
  ⟨_, to_bytes_ok p hv hlen hid1 hid2, from_bytes_to_bytes p hv hnz hid1 hid2 hlen⟩

/-- Witness for C1_roundtrip: the command packet with id 42 and payload
`"list"` (code points 108, 105, 115, 116) round-trips. -/
theorem C1_roundtrip_witness :
    ∃ B, RconPacket.to_bytes ⟨42, .COMMAND_VALUE, [108, 105, 115, 116]⟩ = .ok B ∧
      RconPacket.from_bytes B = .ok ⟨42, .COMMAND_VALUE, [108, 105, 115, 116]⟩ :=
  C1_roundtrip ⟨42, .COMMAND_VALUE, [108, 105, 115, 116]⟩ (by decide)
    (by decide) (by decide) (by decide) (by decide)

/-- Claim C7: `from_bytes` rejects malformed input with distinguishable
errors: any buffer shorter than 12 bytes fails with the truncated error; any
buffer of length at least 12 whose declared length field differs from
`len - 4` fails with the length-mismatch error; any buffer passing both
checks whose kind field is not one of 0, 2, 3 fails with the
invalid-packet-type error, which is distinct from both generic parse
errors. -/
theorem C7_decode_errors :
    (∀ data : List Nat, data.length < 12 →
      RconPacket.from_bytes data = .error .truncated) ∧
    (∀ data : List Nat, 12 ≤ data.length →
      unpackInt32 (data.take 4) ≠ (data.length : Int) - 4 →
      RconPacket.from_bytes data = .error .lengthMismatch) ∧
    (∀ data : List Nat, 12 ≤ data.length →
      unpackInt32 (data.take 4) = (data.length : Int) - 4 →
      unpackInt32 ((data.drop 8).take 4) ∉ ([0, 2, 3] : List Int) →
      RconPacket.from_bytes data = .error .invalidPacketType) ∧
    ParseError.invalidPacketType ≠ ParseError.truncated ∧
    ParseError.invalidPacketType ≠ ParseError.lengthMismatch := by
  refine ⟨?_, ?_, ?_, by decide, by decide⟩
  · intro data h
    simp only [RconPacket.from_bytes]
    rw [if_pos h]
  · intro data h12 hne
    simp only [RconPacket.from_bytes]
    rw [if_neg (show ¬ data.length < 12 by omega), if_pos hne]
  · intro data h12 heq hkind
    simp only [RconPacket.from_bytes]
    rw [if_neg (show ¬ data.length < 12 by omega), if_neg (not_not_intro heq),
      ofInt?_eq_none _ hkind]

/-- Witness for C7_decode_errors: a 3-byte buffer is truncated; a 12-byte
buffer declaring length 2313 mismatches; a 12-byte buffer with kind 7 is an
unknown kind. -/
theorem C7_witness :
    RconPacket.from_bytes [1, 2, 3] = .error .truncated ∧
    RconPacket.from_bytes [9, 9, 0, 0, 1, 0, 0, 0, 0, 0, 0, 0] =
      .error .lengthMismatch ∧
    RconPacket.from_bytes [8, 0, 0, 0, 1, 0, 0, 0, 7, 0, 0, 0] =
      .error .invalidPacketType :=
  ⟨C7_decode_errors.1 _ (by decide),
   C7_decode_errors.2.1 _ (by decide) (by decide),
   C7_decode_errors.2.2.1 _ (by decide) (by decide) (by decide)⟩

/-- Claim C8: the payload is the bytes from offset 12 up to the first
double-zero terminator at or after offset 12; with no double zero, up to the
first single zero; with no zero at all, everything to the end of the buffer.
Stated for buffers whose pre-terminator region is zero-free: (1) a double-zero
terminator possibly followed by extra bytes; (2) a single trailing zero
(non-conformant well-formed buffer) still recovers the payload; (3) no zero at
all takes every remaining byte; and (4) an invalid UTF-8 payload byte decodes
to the replacement character instead of failing the decode. -/
theorem C8_payload_extraction :
    (∀ hdr pb extra : List Nat, ∀ kind : RconPacketType, hdr.length = 12 →
      (∀ b ∈ pb, b ≠ 0) →
      unpackInt32 (hdr.take 4) = ((hdr ++ (pb ++ 0 :: 0 :: extra)).length : Int) - 4 →
      RconPacketType.ofInt? (unpackInt32 ((hdr.drop 8).take 4)) = some kind →
      RconPacket.from_bytes (hdr ++ (pb ++ 0 :: 0 :: extra)) =
        .ok ⟨unpackInt32 ((hdr.drop 4).take 4), kind, utf8Decode pb⟩) ∧
    (∀ hdr pb : List Nat, ∀ kind : RconPacketType, hdr.length = 12 →
      (∀ b ∈ pb, b ≠ 0) →
      unpackInt32 (hdr.take 4) = ((hdr ++ (pb ++ [0])).length : Int) - 4 →
      RconPacketType.ofInt? (unpackInt32 ((hdr.drop 8).take 4)) = some kind →
      RconPacket.from_bytes (hdr ++ (pb ++ [0])) =
        .ok ⟨unpackInt32 ((hdr.drop 4).take 4), kind, utf8Decode pb⟩) ∧
    (∀ hdr pb : List Nat, ∀ kind : RconPacketType, hdr.length = 12 →
      (∀ b ∈ pb, b ≠ 0) →
      unpackInt32 (hdr.take 4) = ((hdr ++ pb).length : Int) - 4 →
      RconPacketType.ofInt? (unpackInt32 ((hdr.drop 8).take 4)) = some kind →
      RconPacket.from_bytes (hdr ++ pb) =
        .ok ⟨unpackInt32 ((hdr.drop 4).take 4), kind, utf8Decode pb⟩) ∧
    RconPacket.from_bytes [11, 0, 0, 0, 5, 0, 0, 0, 0, 0, 0, 0, 255, 0, 0] =
      .ok ⟨5, .RESPONSE_VALUE, [replacementChar]⟩ := by
  refine ⟨?_, ?_, ?_, by decide⟩
  · intro hdr pb extra kind hh hnz hmatch hkind
    have hfind : findPairFrom (pb ++ 0 :: 0 :: extra) 12 = some (12 + pb.length) :=
      findPairFrom_append_pair pb extra 12 hnz
    rw [from_bytes_split hdr (pb ++ 0 :: 0 :: extra) kind hh hmatch hkind
      (12 + pb.length) (by rw [hfind])]
    rcases Nat.eq_zero_or_pos pb.length with h0 | hpos
    · have : pb = [] := List.length_eq_zero.mp h0
      subst this
      rw [if_neg (show ¬ 12 + ([] : List Nat).length > 12 by simp)]
      rfl
    · rw [if_pos (show 12 + pb.length > 12 by omega)]
      have hsub : 12 + pb.length - 12 = pb.length := by omega
      rw [hsub, List.take_append_of_le_length (le_refl _), List.take_length]
  · intro hdr pb kind hh hnz hmatch hkind
    have hfind1 : findPairFrom (pb ++ [0]) 12 = none :=
      findPairFrom_single_zero pb 12 hnz
    have hfind2 : findZeroFrom (pb ++ [0]) 12 = some (12 + pb.length) := by
      have := findZeroFrom_append_zero pb [] 12 hnz
      simpa using this
    rw [from_bytes_split hdr (pb ++ [0]) kind hh hmatch hkind
      (12 + pb.length) (by rw [hfind1, hfind2])]
    rcases Nat.eq_zero_or_pos pb.length with h0 | hpos
    · have : pb = [] := List.length_eq_zero.mp h0
      subst this
      rw [if_neg (show ¬ 12 + ([] : List Nat).length > 12 by simp)]
      rfl
    · rw [if_pos (show 12 + pb.length > 12 by omega)]
      have hsub : 12 + pb.length - 12 = pb.length := by omega
      rw [hsub, List.take_append_of_le_length (le_refl _), List.take_length]
  · intro hdr pb kind hh hnz hmatch hkind
    have hfind1 : findPairFrom pb 12 = none := findPairFrom_no_pair pb 12 hnz
    have hfind2 : findZeroFrom pb 12 = none := findZeroFrom_no_zero pb 12 hnz
    have hlen : (hdr ++ pb).length = 12 + pb.length := by simp [hh]
    rw [from_bytes_split hdr pb kind hh hmatch hkind
      (12 + pb.length) (by rw [hfind1, hfind2, hlen])]
    rcases Nat.eq_zero_or_pos pb.length with h0 | hpos
    · have : pb = [] := List.length_eq_zero.mp h0
      subst this
      rw [if_neg (show ¬ 12 + ([] : List Nat).length > 12 by simp)]
      rfl
    · rw [if_pos (show 12 + pb.length > 12 by omega)]
      have hsub : 12 + pb.length - 12 = pb.length := by omega
      rw [hsub, List.take_length]

/-- Witness for C8_payload_extraction: a buffer with payload `"hi"`, a
double-zero terminator and two bytes of trailing garbage; the same payload
with only a single trailing zero; and the same payload with no terminator at
all — all three decode to payload `"hi"` (code points 104, 105). -/
theorem C8_witness :
    RconPacket.from_bytes
        ([14, 0, 0, 0, 5, 0, 0, 0, 0, 0, 0, 0] ++ ([104, 105] ++ 0 :: 0 :: [9, 9])) =
      .ok ⟨5, .RESPONSE_VALUE, utf8Decode [104, 105]⟩ ∧
    RconPacket.from_bytes
        ([11, 0, 0, 0, 5, 0, 0, 0, 0, 0, 0, 0] ++ ([104, 105] ++ [0])) =
      .ok ⟨5, .RESPONSE_VALUE, utf8Decode [104, 105]⟩ ∧
    RconPacket.from_bytes
        ([10, 0, 0, 0, 5, 0, 0, 0, 0, 0, 0, 0] ++ [104, 105]) =
      .ok ⟨5, .RESPONSE_VALUE, utf8Decode [104, 105]⟩ :=
  ⟨C8_payload_extraction.1 [14, 0, 0, 0, 5, 0, 0, 0, 0, 0, 0, 0] [104, 105]
      [9, 9] .RESPONSE_VALUE (by decide) (by decide) (by decide) (by decide),
   C8_payload_extraction.2.1 [11, 0, 0, 0, 5, 0, 0, 0, 0, 0, 0, 0] [104, 105]
      .RESPONSE_VALUE (by decide) (by decide) (by decide) (by decide),
   C8_payload_extraction.2.2.1 [10, 0, 0, 0, 5, 0, 0, 0, 0, 0, 0, 0] [104, 105]
      .RESPONSE_VALUE (by decide) (by decide) (by decide) (by decide)⟩

/-- Claim C9: `to_bytes` fails with the payload-too-large error for every
packet whose UTF-8-encoded payload plus the fixed overhead (id, kind, two
terminator bytes) does not fit in a signed 32-bit length field, and such a
packet is rejected by `send_packet_and_wait_response` before anything is put
on the wire (the state is returned unchanged). -/
theorem C9_payload_too_large (p : RconPacket)
    (hv : p.payload.all isValidScalar = true)
    (hbig : 2147483648 ≤ (utf8Encode p.payload).length + 10) :
    p.to_bytes = .error .payloadTooLarge ∧
    ∀ s : ClientState, ∀ env : ExchangeOutcome, is_connected s = true →
      send_packet_and_wait_response s p env =
        (.error (.encodeError .payloadTooLarge), s) := by
  have htb : p.to_bytes = .error .payloadTooLarge := by
    unfold RconPacket.to_bytes
    rw [if_neg (by simp [hv])]
    have hp : packInt32 (4 + 4 + ((utf8Encode p.payload).length : Int) + 2) =
        none := by
      unfold packInt32
      rw [if_neg (by push_cast; omega)]
    simp only [hp]
  refine ⟨htb, ?_⟩
  intro s env hs
  unfold send_packet_and_wait_response
  rw [if_neg (by simp [hs])]
  simp only [htb]

/-- Witness for C9_payload_too_large: a packet whose payload is 2147483638
copies of `"A"` (so the encoded length field would need the value 2^31)
fails to encode, and a connected client rejects it without a state change. -/
theorem C9_witness :
    (RconPacket.mk 7 .COMMAND_VALUE (List.replicate 2147483638 65)).to_bytes =
      .error .payloadTooLarge ∧
    send_packet_and_wait_response ⟨true, 0, false⟩
        (RconPacket.mk 7 .COMMAND_VALUE (List.replicate 2147483638 65)) .timeout =
      (.error (.encodeError .payloadTooLarge), ⟨true, 0, false⟩) := by
  have h := C9_payload_too_large ⟨7, .COMMAND_VALUE, List.replicate 2147483638 65⟩
    (all_valid_replicate_65 _)
    (by rw [utf8Encode_replicate_65, List.length_replicate])
  exact ⟨h.1, h.2 ⟨true, 0, false⟩ .timeout rfl⟩

/-! ## Lemmas: the client -/

theorem close_connection_packet_id (s : ClientState) :
    (close_connection s).packet_id = s.packet_id := rfl

theorem close_connection_idem (s : ClientState) :
    close_connection (close_connection s) = close_connection s := rfl

theorem is_connected_close (s : ClientState) :
    is_connected (close_connection s) = false := rfl

theorem is_authenticated_close (s : ClientState) :
    is_authenticated (close_connection s) = false := rfl

theorem is_connected_set_packet_id (s : ClientState) (n : Int) :
    is_connected { s with packet_id := n } = is_connected s := rfl

theorem is_connected_of_is_authenticated (s : ClientState)
    (h : is_authenticated s = true) : is_connected s = true := by
  unfold is_authenticated at h
  unfold is_connected
  exact (Bool.and_eq_true _ _).mp h |>.2

theorem send_packet_cases (s : ClientState) (p : RconPacket)
    (env : ExchangeOutcome) :
    (send_packet_and_wait_response s p env).2 = s ∨
    (send_packet_and_wait_response s p env).2 = close_connection s := by
  unfold send_packet_and_wait_response
  split_ifs
  · cases htb : p.to_bytes with
    | error e => exact Or.inl rfl
    | ok bs =>
      cases env with
      | data bytes =>
        dsimp only
        cases hp : parse_packet bytes with
        | ok rp => exact Or.inl rfl
        | error e => exact Or.inl rfl
      | timeout => exact Or.inl rfl
      | reset => exact Or.inr rfl
      | osError => exact Or.inr rfl
  · exact Or.inl rfl

theorem send_packet_packet_id (s : ClientState) (p : RconPacket)
    (env : ExchangeOutcome) :
    (send_packet_and_wait_response s p env).2.packet_id = s.packet_id := by
  rcases send_packet_cases s p env with h | h <;> rw [h]
  rfl

theorem send_packet_ok_state (s : ClientState) (p : RconPacket)
    (env : ExchangeOutcome) (resp : RconPacket) (s2 : ClientState)
    (h : send_packet_and_wait_response s p env = (.ok resp, s2)) : s2 = s := by
  unfold send_packet_and_wait_response at h
  split_ifs at h
  · cases htb : p.to_bytes with
    | error e =>
      rw [htb] at h
      have hfst := congrArg Prod.fst h
      simp at hfst
    | ok bs =>
      rw [htb] at h
      cases env with
      | data bytes =>
        dsimp only at h
        cases hp : parse_packet bytes with
        | ok rp =>
          rw [hp] at h
          exact (congrArg Prod.snd h).symm
        | error e =>
          rw [hp] at h
          have hfst := congrArg Prod.fst h
          simp at hfst
      | timeout =>
        have hfst := congrArg Prod.fst h
        simp at hfst
      | reset =>
        have hfst := congrArg Prod.fst h
        simp at hfst
      | osError =>
        have hfst := congrArg Prod.fst h
        simp at hfst
  · have hfst := congrArg Prod.fst h
    simp at hfst

theorem send_packet_data_ok (s : ClientState) (p : RconPacket)
    (bytes : List Nat) (rp : RconPacket)
    (hs : is_connected s = true)
    (htb : ∃ B, p.to_bytes = .ok B)
    (hparse : parse_packet bytes = .ok rp) :
    send_packet_and_wait_response s p (.data bytes) =
      (.ok ⟨rp.packet_id, .RESPONSE_VALUE, rp.payload⟩, s) := by
  obtain ⟨B, hB⟩ := htb
  unfold send_packet_and_wait_response
  rw [if_neg (by simp [hs])]
  simp only [hB, hparse]

theorem authenticate_data (cfg : RconConfig) (s : ClientState) (bytes : List Nat)
    (rp : RconPacket) (hs : is_connected s = true)
    (htb : ∃ B, (create_auth_packet (s.packet_id + 1) cfg.password).to_bytes = .ok B)
    (hparse : parse_packet bytes = .ok rp) :
    authenticate cfg s (.data bytes) =
      if rp.packet_id = -1 then
        (.error .authWrongPassword, close_connection { s with packet_id := s.packet_id + 1 })
      else if rp.packet_id ≠ s.packet_id + 1 then
        (.error .authIdMismatch, close_connection { s with packet_id := s.packet_id + 1 })
      else (.ok (), { s with packet_id := s.packet_id + 1, authenticated := true }) := by
  unfold authenticate
  rw [if_neg (by simp [hs])]
  simp only [get_next_packet_id]
  rw [send_packet_data_ok { s with packet_id := s.packet_id + 1 }
    (create_auth_packet (s.packet_id + 1) cfg.password) bytes rp
    (by simpa [is_connected] using hs) htb hparse]

theorem authenticate_error_disconnected (cfg : RconConfig) (s : ClientState)
    (env : ExchangeOutcome) (e : ClientError)
    (h : (authenticate cfg s env).1 = .error e) :
    is_connected (authenticate cfg s env).2 = false ∧
    is_authenticated (authenticate cfg s env).2 = false := by
  unfold authenticate at h ⊢
  split_ifs at h ⊢ with hc
  · simp only [get_next_packet_id] at h ⊢
    rcases hsc : send_packet_and_wait_response { s with packet_id := s.packet_id + 1 }
      (create_auth_packet (s.packet_id + 1) cfg.password) env with ⟨r, s2⟩
    rw [hsc] at h
    cases r with
    | error e2 => exact ⟨rfl, rfl⟩
    | ok resp =>
      dsimp only at h ⊢
      split_ifs at h ⊢ <;> first
        | exact ⟨rfl, rfl⟩
        | simp at h
  · have hcf : is_connected s = false := by simpa using hc
    refine ⟨hcf, ?_⟩
    unfold is_authenticated
    unfold is_connected at hcf
    simp [hcf]

theorem authenticate_packet_id (cfg : RconConfig) (s : ClientState)
    (env : ExchangeOutcome) :
    (authenticate cfg s env).2.packet_id = s.packet_id ∨
    (authenticate cfg s env).2.packet_id = s.packet_id + 1 := by
  unfold authenticate
  split_ifs with hc
  · simp only [get_next_packet_id]
    rcases hsc : send_packet_and_wait_response { s with packet_id := s.packet_id + 1 }
      (create_auth_packet (s.packet_id + 1) cfg.password) env with ⟨r, s2⟩
    have hsp := send_packet_packet_id { s with packet_id := s.packet_id + 1 }
      (create_auth_packet (s.packet_id + 1) cfg.password) env
    rw [hsc] at hsp
    cases r with
    | error e2 => exact Or.inr hsp
    | ok resp =>
      dsimp only
      split_ifs
      · exact Or.inr hsp
      · exact Or.inr hsp
      · exact Or.inr hsp
  · exact Or.inl rfl

theorem connect_attempts_le (outcomes : Nat → Bool) (n : Nat) : ∀ i : Nat,
    (connect_attempts outcomes i n).2.1 ≤ n := by
  induction n with
  | zero => intro i; simp [connect_attempts]
  | succ m ih =>
    intro i
    rw [connect_attempts]
    split_ifs
    · simp
    · simp
    · rcases hc : connect_attempts outcomes (i + 1) m with ⟨r, a, sl⟩
      have := ih (i + 1)
      rw [hc] at this
      simp only [hc]
      simp only at this
      omega

theorem connect_attempts_all_false (outcomes : Nat → Bool)
    (hf : ∀ j, outcomes j = false) :
    ∀ n : Nat, 1 ≤ n → ∀ i : Nat,
      connect_attempts outcomes i n = (false, n, n - 1) := by
  intro n
  induction n with
  | zero => intro h0; exact absurd h0 (by omega)
  | succ m ih =>
    intro _ i
    rw [connect_attempts, if_neg (by simp [hf i])]
    by_cases hm : m = 0
    · subst hm
      simp
    · rw [if_neg hm, ih (by omega) (i + 1)]
      have h1 : m - 1 + 1 = m + 1 - 1 := by omega
      simp only
      rw [h1]

theorem connect_all_fail (cfg : RconConfig) (s : ClientState)
    (outcomes : Nat → Bool) (authEnv : ExchangeOutcome)
    (hna : ¬ (is_connected s = true ∧ is_authenticated s = true))
    (hf : ∀ i, outcomes i = false) :
    connect cfg s outcomes authEnv =
      ⟨.error .connectionError, close_connection s,
        cfg.retry_attempts + 1, cfg.retry_attempts⟩ := by
  unfold connect
  rw [if_neg hna,
    connect_attempts_all_false outcomes hf (cfg.retry_attempts + 1) (by omega) 0]
  simp

theorem connect_error_disconnected (cfg : RconConfig) (s : ClientState)
    (outcomes : Nat → Bool) (authEnv : ExchangeOutcome) (e : ClientError)
    (h : (connect cfg s outcomes authEnv).result = .error e) :
    is_connected (connect cfg s outcomes authEnv).state = false ∧
    is_authenticated (connect cfg s outcomes authEnv).state = false := by
  by_cases hca : is_connected s = true ∧ is_authenticated s = true
  · unfold connect at h
    rw [if_pos hca] at h
    exact absurd h (by simp)
  · unfold connect at h ⊢
    rw [if_neg hca] at h ⊢
    set x := connect_attempts outcomes 0 (cfg.retry_attempts + 1) with hx
    clear_value x
    obtain ⟨op, att, sl⟩ := x
    dsimp only at h ⊢
    cases op with
    | false => exact ⟨rfl, rfl⟩
    | true =>
      rw [if_pos rfl] at h ⊢
      rcases hauth : authenticate cfg
        ⟨true, (close_connection s).packet_id, (close_connection s).authenticated⟩
        authEnv with ⟨r, s3⟩
      rw [hauth] at h
      cases r with
      | ok u => simp at h
      | error e2 =>
        have hd := authenticate_error_disconnected cfg
          ⟨true, (close_connection s).packet_id, (close_connection s).authenticated⟩
          authEnv e2 (by rw [hauth])
        rw [hauth] at hd
        exact hd

theorem connect_packet_id (cfg : RconConfig) (s : ClientState)
    (outcomes : Nat → Bool) (authEnv : ExchangeOutcome) :
    (connect cfg s outcomes authEnv).state.packet_id = s.packet_id ∨
    (connect cfg s outcomes authEnv).state.packet_id = s.packet_id + 1 := by
  by_cases hca : is_connected s = true ∧ is_authenticated s = true
  · unfold connect
    rw [if_pos hca]
    exact Or.inl rfl
  · unfold connect
    rw [if_neg hca]
    set x := connect_attempts outcomes 0 (cfg.retry_attempts + 1) with hx
    clear_value x
    obtain ⟨op, att, sl⟩ := x
    dsimp only
    cases op with
    | false => exact Or.inl rfl
    | true =>
      rw [if_pos rfl]
      rcases hauth : authenticate cfg
        ⟨true, (close_connection s).packet_id, (close_connection s).authenticated⟩
        authEnv with ⟨r, s3⟩
      have hap := authenticate_packet_id cfg
        ⟨true, (close_connection s).packet_id, (close_connection s).authenticated⟩
        authEnv
      rw [hauth] at hap
      cases r with
      | ok u => exact hap
      | error e2 => exact hap

theorem execute_core_packet_id (s : ClientState) (command : List Nat)
    (env : ExchangeOutcome) :
    (execute_command_core s command env).state.packet_id = s.packet_id + 1 := by
  unfold execute_command_core
  simp only [get_next_packet_id]
  rcases hsc : send_packet_and_wait_response { s with packet_id := s.packet_id + 1 }
    (create_command_packet (s.packet_id + 1) command) env with ⟨r, s2⟩
  have hsp := send_packet_packet_id { s with packet_id := s.packet_id + 1 }
    (create_command_packet (s.packet_id + 1) command) env
  rw [hsc] at hsp
  cases r with
  | error e => exact hsp
  | ok resp => exact hsp

theorem execute_core_error_disconnected (s : ClientState) (command : List Nat)
    (env : ExchangeOutcome) (e : ClientError)
    (h : (execute_command_core s command env).result = .error e) :
    is_connected (execute_command_core s command env).state = false ∧
    is_authenticated (execute_command_core s command env).state = false := by
  unfold execute_command_core at h ⊢
  simp only [get_next_packet_id] at h ⊢
  rcases hsc : send_packet_and_wait_response { s with packet_id := s.packet_id + 1 }
    (create_command_packet (s.packet_id + 1) command) env with ⟨r, s2⟩
  rw [hsc] at h
  cases r with
  | error e2 => exact ⟨rfl, rfl⟩
  | ok resp => simp at h

theorem execute_command_error_disconnected (cfg : RconConfig) (s : ClientState)
    (env : NetEnv) (command : List Nat) (e : ClientError)
    (h : (execute_command cfg s env command).result = .error e) :
    is_connected (execute_command cfg s env command).state = false ∧
    is_authenticated (execute_command cfg s env command).state = false := by
  unfold execute_command at h ⊢
  split_ifs at h ⊢ with hca
  · exact execute_core_error_disconnected s command env.cmdExchange e h
  · rcases hcon : connect cfg s env.openOutcomes env.authExchange with ⟨r, s1, att, sl⟩
    cases r with
    | error e2 =>
      have hd := connect_error_disconnected cfg s env.openOutcomes env.authExchange e2
        (by rw [hcon])
      rw [hcon] at hd
      exact hd
    | ok u =>
      rw [hcon] at h
      exact execute_core_error_disconnected s1 command env.cmdExchange e h

theorem execute_command_packet_id (cfg : RconConfig) (s : ClientState)
    (env : NetEnv) (command : List Nat) :
    s.packet_id ≤ (execute_command cfg s env command).state.packet_id := by
  unfold execute_command
  split_ifs with hca
  · rw [execute_core_packet_id]
    omega
  · rcases hcon : connect cfg s env.openOutcomes env.authExchange with ⟨r, s1, att, sl⟩
    have hcp := connect_packet_id cfg s env.openOutcomes env.authExchange
    rw [hcon] at hcp
    cases r with
    | error e2 =>
      dsimp only
      dsimp only at hcp
      omega
    | ok u =>
      dsimp only
      rw [execute_core_packet_id]
      dsimp only at hcp
      omega

theorem ping_error_disconnected (cfg : RconConfig) (s : ClientState)
    (env : NetEnv) (e : ClientError)
    (h : (ping cfg s env).1 = .error e) :
    is_connected (ping cfg s env).2 = false ∧
    is_authenticated (ping cfg s env).2 = false := by
  unfold ping at h ⊢
  split_ifs at h ⊢ with hca
  · rcases hex : execute_command cfg s env time_query_daytime with ⟨r, s1, w⟩
    rw [hex] at h
    cases r with
    | ok u => simp at h
    | error e2 =>
      have hd := execute_command_error_disconnected cfg s env time_query_daytime e2
        (by rw [hex])
      rw [hex] at hd
      exact hd
  · rcases hcon : connect cfg s env.openOutcomes env.authExchange with ⟨r, s1, att, sl⟩
    rw [hcon] at h
    cases r with
    | error e2 =>
      have hd := connect_error_disconnected cfg s env.openOutcomes env.authExchange e2
        (by rw [hcon])
      rw [hcon] at hd
      exact hd
    | ok u =>
      dsimp only at h ⊢
      rcases hex : execute_command cfg s1 env time_query_daytime with ⟨r2, s2, w⟩
      try rw [hex] at h
      cases r2 with
      | ok u2 => simp at h
      | error e2 =>
        have hd := execute_command_error_disconnected cfg s1 env time_query_daytime e2
          (by rw [hex])
        rw [hex] at hd
        exact hd

theorem ping_packet_id (cfg : RconConfig) (s : ClientState) (env : NetEnv) :
    s.packet_id ≤ (ping cfg s env).2.packet_id := by
  unfold ping
  split_ifs with hca
  · rcases hex : execute_command cfg s env time_query_daytime with ⟨r, s1, w⟩
    have hep := execute_command_packet_id cfg s env time_query_daytime
    rw [hex] at hep
    cases r with
    | ok u => exact hep
    | error e2 => exact hep
  · rcases hcon : connect cfg s env.openOutcomes env.authExchange with ⟨r, s1, att, sl⟩
    have hcp := connect_packet_id cfg s env.openOutcomes env.authExchange
    rw [hcon] at hcp
    cases r with
    | error e2 =>
      dsimp only
      dsimp only at hcp
      omega
    | ok u =>
      dsimp only
      rcases hex : execute_command cfg s1 env time_query_daytime with ⟨r2, s2, w⟩
      have hep := execute_command_packet_id cfg s1 env time_query_daytime
      rw [hex] at hep
      dsimp only at hcp hep
      cases r2 with
      | ok u2 =>
        dsimp only
        omega
      | error e2 =>
        dsimp only
        omega

theorem connect_attempts_bound (cfg : RconConfig) (s : ClientState)
    (outcomes : Nat → Bool) (authEnv : ExchangeOutcome) :
    (connect cfg s outcomes authEnv).attempts ≤ cfg.retry_attempts + 1 := by
  by_cases hca : is_connected s = true ∧ is_authenticated s = true
  · unfold connect
    rw [if_pos hca]
    exact Nat.zero_le _
  · unfold connect
    rw [if_neg hca]
    have hle := connect_attempts_le outcomes (cfg.retry_attempts + 1) 0
    set x := connect_attempts outcomes 0 (cfg.retry_attempts + 1) with hx
    clear_value x
    obtain ⟨op, att, sl⟩ := x
    dsimp only at hle ⊢
    cases op with
    | false => exact hle
    | true =>
      rw [if_pos rfl]
      rcases hauth : authenticate cfg
        ⟨true, (close_connection s).packet_id, (close_connection s).authenticated⟩
        authEnv with ⟨r, s3⟩
      cases r with
      | ok u => exact hle
      | error e2 => exact hle

/-! ## Client claim theorems -/

/-- Claim C2, counterexample: a fresh client connects successfully (the auth
exchange uses request id 1 and the counter ends at 1) and then disconnects;
on the next connect the first request id allocated is 2, not 1 — an auth
response carrying id 1 (the id the claim says a new connection would use) is
rejected as an id mismatch, and the counter ends at 2.  The request-id
counter is therefore not reset when a new connection is established. -/
theorem C2_counterexample :
    (connect ⟨[], 0⟩ initState (fun _ => true)
        (.data [10, 0, 0, 0, 1, 0, 0, 0, 0, 0, 0, 0, 0, 0])).result = .ok () ∧
    (connect ⟨[], 0⟩ initState (fun _ => true)
        (.data [10, 0, 0, 0, 1, 0, 0, 0, 0, 0, 0, 0, 0, 0])).state.packet_id = 1 ∧
    (connect ⟨[], 0⟩
        (disconnect (connect ⟨[], 0⟩ initState (fun _ => true)
          (.data [10, 0, 0, 0, 1, 0, 0, 0, 0, 0, 0, 0, 0, 0])).state)
        (fun _ => true)
        (.data [10, 0, 0, 0, 1, 0, 0, 0, 0, 0, 0, 0, 0, 0])).result =
      .error .authIdMismatch ∧
    (connect ⟨[], 0⟩
        (disconnect (connect ⟨[], 0⟩ initState (fun _ => true)
          (.data [10, 0, 0, 0, 1, 0, 0, 0, 0, 0, 0, 0, 0, 0])).state)
        (fun _ => true)
        (.data [10, 0, 0, 0, 1, 0, 0, 0, 0, 0, 0, 0, 0, 0])).state.packet_id = 2 := by
  refine ⟨by decide, by decide, by decide, by decide⟩

/-- Claim C2 (amended): the request-id counter is scoped to the client
instance, not to one connection: it starts at 0 at construction (so the very
first id allocated by the instance is 1), `connect` never resets it — a
connect either leaves the counter unchanged or increments it by exactly one
(the authentication request of a newly opened connection) — and `disconnect`
leaves it unchanged, so after a reconnect the ids continue increasing from
where the previous connection stopped. -/
theorem C2_counter_not_reset :
    initState.packet_id = 0 ∧
    (get_next_packet_id initState).1 = 1 ∧
    (∀ cfg s outcomes authEnv,
      (connect cfg s outcomes authEnv).state.packet_id = s.packet_id ∨
      (connect cfg s outcomes authEnv).state.packet_id = s.packet_id + 1) ∧
    (∀ s, (disconnect s).packet_id = s.packet_id) :=
  ⟨rfl, rfl, fun cfg s outcomes authEnv => connect_packet_id cfg s outcomes authEnv,
    fun s => rfl⟩

/-- Claim C3: every failing call of connect, authenticate, execute_command or
ping leaves the client Disconnected before the error is returned: the
transport is released (`is_connected` is false) and `is_authenticated` is
false, so a subsequent call can never observe a half-open session. -/
theorem C3_failure_leaves_disconnected :
    (∀ cfg s outcomes authEnv e,
      (connect cfg s outcomes authEnv).result = .error e →
      is_connected (connect cfg s outcomes authEnv).state = false ∧
      is_authenticated (connect cfg s outcomes authEnv).state = false) ∧
    (∀ cfg s env e, (authenticate cfg s env).1 = .error e →
      is_connected (authenticate cfg s env).2 = false ∧
      is_authenticated (authenticate cfg s env).2 = false) ∧
    (∀ cfg s env command e,
      (execute_command cfg s env command).result = .error e →
      is_connected (execute_command cfg s env command).state = false ∧
      is_authenticated (execute_command cfg s env command).state = false) ∧
    (∀ cfg s env e, (ping cfg s env).1 = .error e →
      is_connected (ping cfg s env).2 = false ∧
      is_authenticated (ping cfg s env).2 = false) :=
  ⟨fun cfg s o a e h => connect_error_disconnected cfg s o a e h,
   fun cfg s env e h => authenticate_error_disconnected cfg s env e h,
   fun cfg s env c e h => execute_command_error_disconnected cfg s env c e h,
   fun cfg s env e h => ping_error_disconnected cfg s env e h⟩

/-- Witness for C3_failure_leaves_disconnected: concrete failing runs of the
four operations (refused transport for connect, execute_command and ping; a
not-connected state for authenticate) all end with `is_connected` and
`is_authenticated` false. -/
theorem C3_witness :
    (is_connected (connect ⟨[], 0⟩ initState (fun _ => false) .timeout).state = false ∧
     is_authenticated (connect ⟨[], 0⟩ initState (fun _ => false) .timeout).state = false) ∧
    (is_connected (authenticate ⟨[], 0⟩ initState .timeout).2 = false ∧
     is_authenticated (authenticate ⟨[], 0⟩ initState .timeout).2 = false) ∧
    (is_connected (execute_command ⟨[], 0⟩ initState
        ⟨fun _ => false, .timeout, .timeout⟩ []).state = false ∧
     is_authenticated (execute_command ⟨[], 0⟩ initState
        ⟨fun _ => false, .timeout, .timeout⟩ []).state = false) ∧
    (is_connected (ping ⟨[], 0⟩ initState ⟨fun _ => false, .timeout, .timeout⟩).2 = false ∧
     is_authenticated (ping ⟨[], 0⟩ initState ⟨fun _ => false, .timeout, .timeout⟩).2 = false) :=
  ⟨C3_failure_leaves_disconnected.1 ⟨[], 0⟩ initState (fun _ => false) .timeout
      .connectionError (by decide),
   C3_failure_leaves_disconnected.2.1 ⟨[], 0⟩ initState .timeout
      .connectionError (by decide),
   C3_failure_leaves_disconnected.2.2.1 ⟨[], 0⟩ initState
      ⟨fun _ => false, .timeout, .timeout⟩ [] .connectionError (by decide),
   C3_failure_leaves_disconnected.2.2.2 ⟨[], 0⟩ initState
      ⟨fun _ => false, .timeout, .timeout⟩ .connectionError (by decide)⟩

/-- Claim C4: connect opens the transport at most `retry_attempts + 1` times;
and when the client is not already connected and authenticated and every
attempt fails, connect makes exactly `retry_attempts + 1` attempts, sleeping
`retry_delay` between consecutive attempts (`retry_attempts` sleeps), fails
with the ConnectionError wrapping the last transport error, and ends in the
closed (Disconnected) state. -/
theorem C4_connect_retries :
    (∀ cfg s outcomes authEnv,
      (connect cfg s outcomes authEnv).attempts ≤ cfg.retry_attempts + 1) ∧
    (∀ cfg s outcomes authEnv,
      ¬ (is_connected s = true ∧ is_authenticated s = true) →
      (∀ i, outcomes i = false) →
      connect cfg s outcomes authEnv =
        ⟨.error .connectionError, close_connection s,
          cfg.retry_attempts + 1, cfg.retry_attempts⟩) :=
  ⟨fun cfg s o a => connect_attempts_bound cfg s o a,
   fun cfg s o a hna hf => connect_all_fail cfg s o a hna hf⟩

/-- Witness for C4_connect_retries: with `retry_attempts = 2` against an
endpoint refusing every connection, connect makes exactly 3 attempts with 2
sleeps, fails with the ConnectionError, and ends Disconnected. -/
theorem C4_witness :
    (connect ⟨[], 2⟩ initState (fun _ => false) .timeout).attempts ≤ 3 ∧
    connect ⟨[], 2⟩ initState (fun _ => false) .timeout =
      ⟨.error .connectionError, close_connection initState, 3, 2⟩ :=
  ⟨C4_connect_retries.1 ⟨[], 2⟩ initState (fun _ => false) .timeout,
   C4_connect_retries.2 ⟨[], 2⟩ initState (fun _ => false) .timeout
     (by decide) (fun i => rfl)⟩

/-- Claim C5: during authentication, when the response frame parses to a
packet `rp`: a response id of -1 fails with the wrong-password
AuthenticationError regardless of the request id (the sentinel check
precedes the id-match check, so it wins even when the ids happen to match);
a response id other than -1 that differs from the request id fails with the
distinct id-mismatch AuthenticationError; and only a response whose id
equals the request id (and is not -1) marks the client Authenticated. -/
theorem C5_auth_sentinel (cfg : RconConfig) (s : ClientState) (bytes : List Nat)
    (rp : RconPacket) (hs : is_connected s = true)
    (htb : ∃ B, (create_auth_packet (s.packet_id + 1) cfg.password).to_bytes = .ok B)
    (hparse : parse_packet bytes = .ok rp) :
    (rp.packet_id = -1 →
      (authenticate cfg s (.data bytes)).1 = .error .authWrongPassword) ∧
    (rp.packet_id ≠ -1 → rp.packet_id ≠ s.packet_id + 1 →
      (authenticate cfg s (.data bytes)).1 = .error .authIdMismatch) ∧
    (rp.packet_id = s.packet_id + 1 → rp.packet_id ≠ -1 →
      (authenticate cfg s (.data bytes)).1 = .ok () ∧
      is_authenticated (authenticate cfg s (.data bytes)).2 = true) := by
  rw [authenticate_data cfg s bytes rp hs htb hparse]
  refine ⟨?_, ?_, ?_⟩
  · intro h1
    rw [if_pos h1]
  · intro h1 h2
    rw [if_neg h1, if_pos h2]
  · intro h1 h2
    rw [if_neg h2, if_neg (not_not_intro h1)]
    refine ⟨rfl, ?_⟩
    unfold is_authenticated
    simp [is_connected] at hs
    simp [hs]

/-- Witness for C5_auth_sentinel: from a connected state with counter 0 (so
the request id is 1): a response with id -1 fails as wrong password, a
response with id 5 fails as id mismatch, and a response with id 1
authenticates. -/
theorem C5_witness :
    ((-1 : Int) = -1 →
      (authenticate ⟨[], 0⟩ ⟨true, 0, false⟩
        (.data [10, 0, 0, 0, 255, 255, 255, 255, 0, 0, 0, 0, 0, 0])).1 =
      .error .authWrongPassword) ∧
    ((5 : Int) ≠ -1 → (5 : Int) ≠ 1 →
      (authenticate ⟨[], 0⟩ ⟨true, 0, false⟩
        (.data [10, 0, 0, 0, 5, 0, 0, 0, 0, 0, 0, 0, 0, 0])).1 =
      .error .authIdMismatch) ∧
    ((1 : Int) = 1 → (1 : Int) ≠ -1 →
      (authenticate ⟨[], 0⟩ ⟨true, 0, false⟩
        (.data [10, 0, 0, 0, 1, 0, 0, 0, 0, 0, 0, 0, 0, 0])).1 = .ok () ∧
      is_authenticated (authenticate ⟨[], 0⟩ ⟨true, 0, false⟩
        (.data [10, 0, 0, 0, 1, 0, 0, 0, 0, 0, 0, 0, 0, 0])).2 = true) :=
  ⟨(C5_auth_sentinel ⟨[], 0⟩ ⟨true, 0, false⟩ _ ⟨-1, .RESPONSE_VALUE, []⟩ rfl
      ⟨[10, 0, 0, 0, 1, 0, 0, 0, 3, 0, 0, 0, 0, 0], rfl⟩ (by decide)).1,
   (C5_auth_sentinel ⟨[], 0⟩ ⟨true, 0, false⟩ _ ⟨5, .RESPONSE_VALUE, []⟩ rfl
      ⟨[10, 0, 0, 0, 1, 0, 0, 0, 3, 0, 0, 0, 0, 0], rfl⟩ (by decide)).2.1,
   (C5_auth_sentinel ⟨[], 0⟩ ⟨true, 0, false⟩ _ ⟨1, .RESPONSE_VALUE, []⟩ rfl
      ⟨[10, 0, 0, 0, 1, 0, 0, 0, 3, 0, 0, 0, 0, 0], rfl⟩ (by decide)).2.2⟩

/-- Claim C6: during execute_command from an authenticated state, a response
whose id differs from the request id is not an error: the mismatch is
flagged (the warning of rcon_client.py line 220 is logged) but the response
payload is still returned successfully to the caller. -/
theorem C6_command_mismatch_lenient (cfg : RconConfig) (s : ClientState)
    (env : NetEnv) (command : List Nat) (bytes : List Nat) (rp : RconPacket)
    (hs : is_authenticated s = true)
    (henv : env.cmdExchange = .data bytes)
    (htb : ∃ B, (create_command_packet (s.packet_id + 1) command).to_bytes = .ok B)
    (hparse : parse_packet bytes = .ok rp)
    (hne : rp.packet_id ≠ s.packet_id + 1) :
    (execute_command cfg s env command).result = .ok rp.payload ∧
    (execute_command cfg s env command).warned = true := by
  unfold execute_command
  rw [if_pos hs]
  unfold execute_command_core
  simp only [get_next_packet_id]
  rw [henv, send_packet_data_ok { s with packet_id := s.packet_id + 1 }
    (create_command_packet (s.packet_id + 1) command) bytes rp
    (by simpa [is_connected] using is_connected_of_is_authenticated s hs) htb hparse]
  exact ⟨rfl, by simp [hne]⟩

/-- Witness for C6_command_mismatch_lenient: an authenticated client sends a
command with request id 1 and receives a response with id 99 and payload
`"hi"`; the call returns the payload successfully and the mismatch warning
is flagged. -/
theorem C6_witness :
    (execute_command ⟨[], 0⟩ ⟨true, 0, true⟩
        ⟨fun _ => true, .timeout,
          .data [12, 0, 0, 0, 99, 0, 0, 0, 0, 0, 0, 0, 104, 105, 0, 0]⟩
        [108]).result = .ok [104, 105] ∧
    (execute_command ⟨[], 0⟩ ⟨true, 0, true⟩
        ⟨fun _ => true, .timeout,
          .data [12, 0, 0, 0, 99, 0, 0, 0, 0, 0, 0, 0, 104, 105, 0, 0]⟩
        [108]).warned = true :=
  C6_command_mismatch_lenient ⟨[], 0⟩ ⟨true, 0, true⟩
    ⟨fun _ => true, .timeout,
      .data [12, 0, 0, 0, 99, 0, 0, 0, 0, 0, 0, 0, 104, 105, 0, 0]⟩
    [108] [12, 0, 0, 0, 99, 0, 0, 0, 0, 0, 0, 0, 104, 105, 0, 0]
    ⟨99, .RESPONSE_VALUE, [104, 105]⟩ rfl rfl
    ⟨[11, 0, 0, 0, 1, 0, 0, 0, 2, 0, 0, 0, 108, 0, 0], rfl⟩ (by decide) (by decide)

/-- Claim C10: within one client instance the counter starts at 0, each
allocation increments it by exactly one and returns the new value, no
operation (connect, disconnect, authenticate, execute_command, ping or the
send primitive) ever decreases it, and from any state with a nonnegative
counter the allocated id is at least 1 — in particular never -1, so the Auth
and Command packets built from it never carry the authentication-failure
sentinel id. -/
theorem C10_counter_invariant :
    initState.packet_id = 0 ∧
    (∀ s, get_next_packet_id s =
      (s.packet_id + 1, { s with packet_id := s.packet_id + 1 })) ∧
    (∀ s : ClientState, 0 ≤ s.packet_id →
      1 ≤ (get_next_packet_id s).1 ∧
      (∀ pw, (create_auth_packet (get_next_packet_id s).1 pw).packet_id ≠ -1) ∧
      (∀ cmd, (create_command_packet (get_next_packet_id s).1 cmd).packet_id ≠ -1)) ∧
    (∀ s, (disconnect s).packet_id = s.packet_id) ∧
    (∀ s p env, s.packet_id ≤ (send_packet_and_wait_response s p env).2.packet_id) ∧
    (∀ cfg s env, s.packet_id ≤ (authenticate cfg s env).2.packet_id) ∧
    (∀ cfg s outcomes authEnv,
      s.packet_id ≤ (connect cfg s outcomes authEnv).state.packet_id) ∧
    (∀ cfg s env cmd, s.packet_id ≤ (execute_command cfg s env cmd).state.packet_id) ∧
    (∀ cfg s env, s.packet_id ≤ (ping cfg s env).2.packet_id) := by
  refine ⟨rfl, fun s => rfl, ?_, fun s => rfl, ?_, ?_, ?_, ?_, ?_⟩
  · intro s h0
    refine ⟨by simp [get_next_packet_id]; omega, ?_, ?_⟩
    · intro pw
      simp [create_auth_packet, get_next_packet_id]
      omega
    · intro cmd
      simp [create_command_packet, get_next_packet_id]
      omega
  · intro s p env
    rw [send_packet_packet_id]
  · intro cfg s env
    rcases authenticate_packet_id cfg s env with h | h <;> rw [h] <;> omega
  · intro cfg s outcomes authEnv
    rcases connect_packet_id cfg s outcomes authEnv with h | h <;> rw [h] <;> omega
  · intro cfg s env cmd
    exact execute_command_packet_id cfg s env cmd
  · intro cfg s env
    exact ping_packet_id cfg s env

/-- Witness for C10_counter_invariant: from the initial state (counter 0) the
allocated id is 1, which is not the sentinel -1 in either packet
constructor. -/
theorem C10_witness :
    0 ≤ initState.packet_id ∧
    1 ≤ (get_next_packet_id initState).1 ∧
    (create_auth_packet (get_next_packet_id initState).1 []).packet_id ≠ -1 ∧
    (create_command_packet (get_next_packet_id initState).1 []).packet_id ≠ -1 := by
  have h := C10_counter_invariant.2.2.1 initState (by decide)
  exact ⟨by decide, h.1, h.2.1 [], h.2.2 []⟩

end McRcon
